import Mathlib

/-!
Shallow embedding of `src/Flask_Server/server.py`, a minimal Flask file
server with three routes: POST /upload (`upload_file`), GET /files
(`list_files`) and GET /files/<path:filename> (`get_file`).

Modelling choices:
* Byte contents are `List Nat`; filenames are `String`.
* The storage directory is the process working directory.  The filesystem
  state `FS` records the regular files as an association list from the
  resolved location of each file to its bytes, together with the set of
  subdirectories of the storage directory.  A location is either a
  normalized segment path inside the storage directory (`Loc.inside`) or a
  place outside it (`Loc.outside`, keyed by the raw filename), since
  `os.path.join(os.getcwd(), filename)` performs no sanitization: an
  absolute filename discards the working directory and `..` segments can
  escape it.
* `file.save` is werkzeug `FileStorage.save`, i.e. `open(path, "wb")`
  followed by a write: it succeeds when every intermediate directory of the
  target path exists, and raises `FileNotFoundError` when one is missing
  (or `IsADirectoryError` when the target is the storage directory itself),
  in which case Flask answers its default 500 and nothing is written
  (`saveOk` below).  A write outside the storage directory is modelled as
  succeeding: the parent of the working directory exists, and the remaining
  environmental faults (disk full, permission errors) are out of scope,
  exactly as the spec declares them unhandled faults that propagate to the
  runtime.  The corner case of the target path naming an existing
  subdirectory (also `IsADirectoryError`) is likewise environmental state
  the model does not track; no claim depends on it.
* `send_from_directory(os.getcwd(), filename, as_attachment=True)` is
  modelled after werkzeug: `safe_join` normalizes the path and rejects
  absolute paths and paths escaping the directory (returning `none`, which
  the handler turns into the framework default 404), then the file is
  served only if a regular file exists at the resolved path (a directory,
  including the storage directory itself, is not a regular file).
-/

abbrev Bytes := List Nat

/-- A path inside the storage directory: normalized, non-"."/".." segments;
`[]` denotes the storage directory itself. -/
abbrev FPath := List String

/-- Resolved location of a saved file: inside the storage directory at a
normalized segment path, or outside it (absolute filename or one whose
`..` segments climb above the directory), keyed by the raw filename. -/
inductive Loc where
  | inside (p : FPath)
  | outside (raw : String)
deriving DecidableEq, Repr

/-- Split a character list into path segments at every slash, as POSIX
path handling does. -/
def splitSegsAux : List Char → List Char → List String
  | cur, [] => [String.mk cur.reverse]
  | cur, c :: cs =>
    if c = '/' then String.mk cur.reverse :: splitSegsAux [] cs
    else splitSegsAux (c :: cur) cs

/-- Segments of a filename, splitting at slashes. -/
def splitSlash (s : String) : List String :=
  splitSegsAux [] s.data

/-- Normalize a segment list like `posixpath.normpath` relative to the
storage directory: drop empty and `.` segments, let `..` pop the previous
segment; `none` when a `..` climbs above the storage directory. -/
def normSegsAux : List String → List String → Option (List String)
  | acc, [] => some acc.reverse
  | acc, s :: rest =>
    if s = "" ∨ s = "." then normSegsAux acc rest
    else if s = ".." then
      match acc with
      | [] => none
      | _ :: acc2 => normSegsAux acc2 rest
    else normSegsAux (s :: acc) rest

/-- Whether the filename is absolute (begins with a slash), in which case
`os.path.join(os.getcwd(), filename)` discards the working directory. -/
def headIsSlash (s : String) : Bool :=
  match s.data with
  | [] => false
  | c :: _ => c = '/'

/-- Where `file.save(os.path.join(os.getcwd(), filename))` writes: an
absolute or escaping filename lands outside the storage directory,
anything else at its normalized segment path inside it. -/
def resolveUpload (filename : String) : Loc :=
  if headIsSlash filename then .outside filename
  else
    match normSegsAux [] (splitSlash filename) with
    | some p => .inside p
    | none => .outside filename

/-- Werkzeug `safe_join(directory, filename)`: reject absolute filenames
and filenames whose normalization escapes the directory; otherwise return
the normalized in-directory path. -/
def safeResolve (filename : String) : Option FPath :=
  if headIsSlash filename then none
  else normSegsAux [] (splitSlash filename)

/-- Filesystem state: the regular files (location ↦ bytes, first binding
wins) and the subdirectories of the storage directory. -/
structure FS where
  files : List (Loc × Bytes)
  dirs : List FPath
deriving DecidableEq, Repr

/-- The empty storage directory. -/
def FS.empty : FS := ⟨[], []⟩

/-- First binding of a location in a file association list. -/
def lookupLoc (l : Loc) : List (Loc × Bytes) → Option Bytes
  | [] => none
  | e :: es => if e.1 = l then some e.2 else lookupLoc l es

/-- Remove every binding of a location from a file association list. -/
def eraseLoc (l : Loc) : List (Loc × Bytes) → List (Loc × Bytes)
  | [] => []
  | e :: es => if e.1 = l then eraseLoc l es else e :: eraseLoc l es

/-- Content of the regular file at a location, if one exists. -/
def FS.fileAt (fs : FS) (l : Loc) : Option Bytes :=
  lookupLoc l fs.files

/-- Store bytes at a location, overwriting any existing file there. -/
def FS.setFile (fs : FS) (l : Loc) (c : Bytes) : FS :=
  ⟨(l, c) :: eraseLoc l fs.files, fs.dirs⟩

/-- The `file` part of a multipart upload request: the client-supplied
filename and the body bytes. -/
structure FilePart where
  filename : String
  content : Bytes
deriving DecidableEq, Repr

/-- An upload request: `request.files['file']` when a `file` part is
present. -/
structure UploadRequest where
  filePart : Option FilePart
deriving DecidableEq, Repr

/-- Response of the upload handler: plain-text body and HTTP status. -/
structure UploadResponse where
  body : String
  status : Nat
deriving DecidableEq, Repr

/-- Every intermediate directory of a path (every proper non-empty
prefix, the final segment being the file itself) exists among the
subdirectories; `acc` is the prefix already validated. -/
def dirsExistAux (fs : FS) (acc : FPath) : FPath → Bool
  | [] => true
  | [_] => true
  | n :: rest => fs.dirs.contains (acc ++ [n]) && dirsExistAux fs (acc ++ [n]) rest

/-- Whether `open(path, "wb")` succeeds at the resolved location: a
depth-1 path always does (its parent is the storage directory), a deeper
path needs every intermediate subdirectory present (else
`FileNotFoundError`), the storage directory itself (path `[]`) is a
directory, not a writable file (`IsADirectoryError`), and a location
outside the storage directory is written under the existing parent of the
working directory. -/
def saveOk (fs : FS) : Loc → Bool
  | .outside _ => true
  | .inside [] => false
  | .inside (n :: rest) => dirsExistAux fs [] (n :: rest)

/-- Handler for POST /upload (`upload_file`, server.py lines 6-20):
reject a missing `file` part with 400 "No file part", an empty filename
with 400 "No selected file"; otherwise save the bytes at
`os.path.join(os.getcwd(), file.filename)` and answer
200 "File uploaded successfully".  When the save raises (missing
intermediate directory, or the target is the storage directory itself)
the exception propagates and Flask answers its default 500 with nothing
written. -/
def upload_file (fs : FS) (req : UploadRequest) : UploadResponse × FS :=
  match req.filePart with
  | none => ({ body := "No file part", status := 400 }, fs)
  | some f =>
    if f.filename = "" then ({ body := "No selected file", status := 400 }, fs)
    else if saveOk fs (resolveUpload f.filename) then
      ({ body := "File uploaded successfully", status := 200 },
        fs.setFile (resolveUpload f.filename) f.content)
    else ({ body := "Internal Server Error", status := 500 }, fs)

/-- Names returned by `os.listdir(os.getcwd())`: the immediate entries of
the storage directory, i.e. its depth-1 regular files and its depth-1
subdirectories. -/
def FS.listdir (fs : FS) : List String :=
  fs.files.filterMap (fun e =>
    match e.1 with
    | .inside [n] => some n
    | _ => none)
  ++ fs.dirs.filterMap (fun p =>
    match p with
    | [n] => some n
    | _ => none)

/-- `os.path.isfile(os.path.join(os.getcwd(), n))` for an immediate entry
name: true exactly when a regular file sits at that depth-1 path. -/
def FS.isfile (fs : FS) (p : FPath) : Bool :=
  (fs.fileAt (.inside p)).isSome

/-- The filename list computed on server.py line 26: `os.listdir` filtered
to regular files. -/
def FS.listing (fs : FS) : List String :=
  fs.listdir.filter (fun n => fs.isfile [n])

/-- Response of the listing handler: the JSON array of names and the HTTP
status. -/
structure ListResponse where
  files : List String
  status : Nat
deriving DecidableEq, Repr

/-- Handler for GET /files (`list_files`, server.py lines 23-28). -/
def list_files (fs : FS) : ListResponse × FS :=
  ({ files := fs.listing, status := 200 }, fs)

/-- Last segment of a path, the `os.path.basename` werkzeug uses as the
attachment download name. -/
def basename : FPath → String
  | [] => ""
  | [n] => n
  | _ :: rest => basename rest

/-- Payload of the download handler: the served file (attachment name and
bytes), or the framework's default not-found response with no custom
body. -/
inductive GetPayload where
  | file (downloadName : String) (content : Bytes)
  | notFound
deriving DecidableEq, Repr

/-- Response of the download handler. -/
structure GetResponse where
  payload : GetPayload
  status : Nat
deriving DecidableEq, Repr

/-- Handler for GET /files/<path:filename> (`get_file`, server.py lines
31-34), via `send_from_directory(os.getcwd(), filename,
as_attachment=True)`: 404 when `safe_join` rejects the filename or no
regular file is at the resolved path (the storage directory itself, path
`[]`, is a directory, not a regular file); otherwise 200 with the bytes
and the basename as attachment name. -/
def get_file (fs : FS) (filename : String) : GetResponse × FS :=
  match safeResolve filename with
  | none => ({ payload := .notFound, status := 404 }, fs)
  | some [] => ({ payload := .notFound, status := 404 }, fs)
  | some (n :: rest) =>
    match fs.fileAt (.inside (n :: rest)) with
    | some c => ({ payload := .file (basename (n :: rest)) c, status := 200 }, fs)
    | none => ({ payload := .notFound, status := 404 }, fs)

/-- A plain filename: non-empty, not `.` or `..`, and containing no
slash.  Such a filename resolves to a depth-1 path inside the storage
directory. -/
def plainName (f : String) : Prop :=
  f ≠ "" ∧ f ≠ "." ∧ f ≠ ".." ∧ ¬ '/' ∈ f.data

instance (f : String) : Decidable (plainName f) := by
  unfold plainName; infer_instance

/-- Sequentially upload a list of (filename, bytes) pairs. -/
def uploadAll (fs : FS) : List (String × Bytes) → FS
  | [] => fs
  | (f, c) :: rest => uploadAll (upload_file fs { filePart := some ⟨f, c⟩ }).2 rest

/-- A location directly inside the storage directory: a depth-1 path. -/
def Loc.directlyInside : Loc → Bool
  | .inside [_] => true
  | _ => false

/-!  Helper lemmas shared by the claim theorems. -/

theorem headIsSlash_of_no_slash (f : String) (h : ¬ '/' ∈ f.data) :
    headIsSlash f = false := by
  unfold headIsSlash
  cases hd : f.data with
  | nil => rfl
  | cons c cs =>
    rw [hd] at h
    simp only [List.mem_cons, not_or] at h
    exact decide_eq_false (fun hc => h.1 hc.symm)

theorem splitSegsAux_no_slash (l : List Char) (h : ¬ '/' ∈ l) :
    ∀ cur, splitSegsAux cur l = [String.mk (cur.reverse ++ l)] := by
  induction l with
  | nil => intro cur; simp [splitSegsAux]
  | cons c cs ih =>
    intro cur
    simp only [List.mem_cons, not_or] at h
    rw [splitSegsAux, if_neg (fun hc => h.1 hc.symm), ih h.2 (c :: cur)]
    simp

theorem splitSlash_plain (f : String) (h : ¬ '/' ∈ f.data) :
    splitSlash f = [f] := by
  rw [splitSlash, splitSegsAux_no_slash f.data h []]
  obtain ⟨d⟩ := f
  rfl

theorem resolveUpload_plain (f : String) (h : plainName f) :
    resolveUpload f = Loc.inside [f] := by
  obtain ⟨h1, h2, h3, h4⟩ := h
  simp [resolveUpload, headIsSlash_of_no_slash f h4, splitSlash_plain f h4,
    normSegsAux, h1, h2, h3]

theorem safeResolve_plain (f : String) (h : plainName f) :
    safeResolve f = some [f] := by
  obtain ⟨h1, h2, h3, h4⟩ := h
  simp [safeResolve, headIsSlash_of_no_slash f h4, splitSlash_plain f h4,
    normSegsAux, h1, h2, h3]

theorem fileAt_setFile_same (fs : FS) (l : Loc) (c : Bytes) :
    (fs.setFile l c).fileAt l = some c := by
  simp [FS.setFile, FS.fileAt, lookupLoc]

theorem lookupLoc_isSome_iff (l : Loc) (es : List (Loc × Bytes)) :
    (lookupLoc l es).isSome = true ↔ ∃ c, (l, c) ∈ es := by
  induction es with
  | nil => simp [lookupLoc]
  | cons e es ih =>
    rw [lookupLoc]
    by_cases he : e.1 = l
    · simp only [if_pos he, Option.isSome_some, true_iff]
      exact ⟨e.2, by rw [← he]; exact List.mem_cons_self _ _⟩
    · rw [if_neg he, ih]
      constructor
      · rintro ⟨c, hc⟩
        exact ⟨c, List.mem_cons_of_mem _ hc⟩
      · rintro ⟨c, hc⟩
        rcases List.mem_cons.mp hc with rfl | hc
        · exact absurd rfl he
        · exact ⟨c, hc⟩

theorem mem_eraseLoc (l : Loc) (es : List (Loc × Bytes)) (e : Loc × Bytes) :
    e ∈ eraseLoc l es ↔ e ∈ es ∧ e.1 ≠ l := by
  induction es with
  | nil => simp [eraseLoc]
  | cons a as ih =>
    rw [eraseLoc]
    by_cases ha : a.1 = l
    · rw [if_pos ha, ih]
      constructor
      · rintro ⟨hm, hn⟩
        exact ⟨List.mem_cons_of_mem _ hm, hn⟩
      · rintro ⟨hm, hn⟩
        rcases List.mem_cons.mp hm with rfl | hm
        · exact absurd ha hn
        · exact ⟨hm, hn⟩
    · rw [if_neg ha]
      constructor
      · intro hm
        rcases List.mem_cons.mp hm with rfl | hm
        · exact ⟨List.mem_cons_self _ _, ha⟩
        · exact ⟨List.mem_cons_of_mem _ ((ih.mp hm).1), (ih.mp hm).2⟩
      · rintro ⟨hm, hn⟩
        rcases List.mem_cons.mp hm with rfl | hm
        · exact List.mem_cons_self _ _
        · exact List.mem_cons_of_mem _ (ih.mpr ⟨hm, hn⟩)

theorem mem_listing_iff (fs : FS) (n : String) :
    n ∈ fs.listing ↔ ∃ c, (Loc.inside [n], c) ∈ fs.files := by
  rw [FS.listing, List.mem_filter]
  simp only [FS.isfile, FS.fileAt]
  rw [lookupLoc_isSome_iff]
  constructor
  · rintro ⟨-, h2⟩
    exact h2
  · intro h
    refine ⟨?_, h⟩
    obtain ⟨c, hc⟩ := h
    rw [FS.listdir]
    exact List.mem_append.mpr (Or.inl (List.mem_filterMap.mpr ⟨(Loc.inside [n], c), hc, rfl⟩))

theorem mem_listing_setFile (fs : FS) (n m : String) (c : Bytes) :
    m ∈ (fs.setFile (Loc.inside [n]) c).listing ↔ m = n ∨ m ∈ fs.listing := by
  rw [mem_listing_iff, mem_listing_iff]
  constructor
  · rintro ⟨c2, hc2⟩
    rcases List.mem_cons.mp hc2 with heq | hmem
    · left
      have := congrArg Prod.fst heq
      simp at this
      exact this
    · right
      exact ⟨c2, ((mem_eraseLoc _ _ _).mp hmem).1⟩
  · rintro (rfl | ⟨c2, hc2⟩)
    · exact ⟨c, List.mem_cons_self _ _⟩
    · by_cases hmn : m = n
      · subst hmn
        exact ⟨c, List.mem_cons_self _ _⟩
      · refine ⟨c2, List.mem_cons_of_mem _ ((mem_eraseLoc _ _ _).mpr ⟨hc2, ?_⟩)⟩
        simp [hmn]

theorem upload_file_plain (fs : FS) (f : String) (c : Bytes) (h : plainName f) :
    upload_file fs { filePart := some ⟨f, c⟩ } =
      ({ body := "File uploaded successfully", status := 200 },
        fs.setFile (Loc.inside [f]) c) := by
  simp [upload_file, h.1, resolveUpload_plain f h, saveOk, dirsExistAux]

theorem mem_listing_uploadAll (fps : List (String × Bytes)) (fs : FS) (m : String)
    (hplain : ∀ p ∈ fps, plainName p.1) :
    m ∈ (uploadAll fs fps).listing ↔ m ∈ fps.map Prod.fst ∨ m ∈ fs.listing := by
  induction fps generalizing fs with
  | nil => simp [uploadAll]
  | cons p rest ih =>
    obtain ⟨f, c⟩ := p
    have hp : plainName f := hplain _ (List.mem_cons_self _ _)
    have hrest : ∀ q ∈ rest, plainName q.1 := fun q hq => hplain _ (List.mem_cons_of_mem _ hq)
    simp only [uploadAll, upload_file_plain fs f c hp]
    rw [ih _ hrest, mem_listing_setFile]
    simp only [List.map_cons, List.mem_cons]
    tauto

theorem get_file_resolved (fs : FS) (f n : String) (rest : List String)
    (h : safeResolve f = some (n :: rest)) :
    get_file fs f =
      match fs.fileAt (Loc.inside (n :: rest)) with
      | some c => ({ payload := .file (basename (n :: rest)) c, status := 200 }, fs)
      | none => ({ payload := .notFound, status := 404 }, fs) := by
  unfold get_file
  rw [h]

theorem safeResolve_eq_none_of_outside (f : String) (h : resolveUpload f = Loc.outside f) :
    safeResolve f = none := by
  unfold resolveUpload at h
  unfold safeResolve
  by_cases hs : headIsSlash f = true
  · simp [hs]
  · simp only [hs, if_false, Bool.false_eq_true] at h ⊢
    cases hn : normSegsAux [] (splitSlash f) with
    | none => rfl
    | some p =>
      rw [hn] at h
      simp at h

/-!  Claim theorems. -/

/-- C1 (amended): for every valid upload whose filename contains no path
separator and is not "." or "..", the upload answers 200 and a subsequent
download of that filename, with no intervening overwrite, returns exactly
the uploaded bytes with status 200 (round-trip identity). -/
theorem upload_download_roundtrip (fs : FS) (f : String) (c : Bytes)
    (h : plainName f) :
    (upload_file fs { filePart := some ⟨f, c⟩ }).1.status = 200 ∧
    (get_file (upload_file fs { filePart := some ⟨f, c⟩ }).2 f).1 =
      { payload := GetPayload.file f c, status := 200 } := by
  rw [upload_file_plain fs f c h]
  refine ⟨rfl, ?_⟩
  rw [get_file_resolved _ f f [] (safeResolve_plain f h), fileAt_setFile_same]
  rfl

/-- C1 counterexample: the upload of filename "../esc" is valid (file part
present, filename non-empty) and answers 200, yet the subsequent download
of "../esc" answers 404, not the uploaded content. -/
theorem upload_download_roundtrip_cex :
    (upload_file FS.empty { filePart := some ⟨"../esc", [1, 2]⟩ }).1.status = 200 ∧
    (get_file (upload_file FS.empty { filePart := some ⟨"../esc", [1, 2]⟩ }).2 ("../esc")).1 =
      { payload := GetPayload.notFound, status := 404 } :=
  ⟨rfl, rfl⟩

/-- C1 witness at filename "w1" and content [5]. -/
theorem upload_download_roundtrip_witness :
    (get_file (upload_file FS.empty { filePart := some ⟨"w1", [5]⟩ }).2 ("w1")).1 =
      { payload := GetPayload.file ("w1") [5], status := 200 } :=
  (upload_download_roundtrip FS.empty ("w1") [5] (by decide)).2

/-- C2: the upload handler answers 400 iff the `file` part is missing
(body "No file part") or its filename is empty (body "No selected file"),
and in either failure case the filesystem state is unchanged. -/
theorem upload_error_iff (fs : FS) (req : UploadRequest) :
    ((upload_file fs req).1.status = 400 ↔
      req.filePart = none ∨ ∃ fp, req.filePart = some fp ∧ fp.filename = "") ∧
    (req.filePart = none →
      (upload_file fs req).1 = { body := "No file part", status := 400 }) ∧
    (∀ fp, req.filePart = some fp → fp.filename = "" →
      (upload_file fs req).1 = { body := "No selected file", status := 400 }) ∧
    ((upload_file fs req).1.status = 400 → (upload_file fs req).2 = fs) := by
  obtain ⟨_ | fp⟩ := req
  · simp [upload_file]
  · by_cases hf : fp.filename = ""
    · simp [upload_file, hf]
    · by_cases hs : saveOk fs (resolveUpload fp.filename) = true <;>
        simp [upload_file, hf, hs]

/-- C2 witness: a request with no `file` part answers 400. -/
theorem upload_error_iff_witness :
    (upload_file FS.empty { filePart := none }).1.status = 400 :=
  (upload_error_iff FS.empty { filePart := none }).1.mpr (Or.inl rfl)

/-- C3 (amended): uploading the same filename twice with different
contents, the filename containing no path separator and not "." or "..":
after the second upload a download returns the second content with 200,
and never the first content. -/
theorem overwrite_last_write_wins (fs : FS) (f : String) (c1 c2 : Bytes)
    (h : plainName f) (hne : c1 ≠ c2) :
    (get_file (upload_file (upload_file fs { filePart := some ⟨f, c1⟩ }).2
        { filePart := some ⟨f, c2⟩ }).2 f).1 =
      { payload := GetPayload.file f c2, status := 200 } ∧
    (get_file (upload_file (upload_file fs { filePart := some ⟨f, c1⟩ }).2
        { filePart := some ⟨f, c2⟩ }).2 f).1.payload ≠ GetPayload.file f c1 := by
  have hfirst :
      (get_file (upload_file (upload_file fs { filePart := some ⟨f, c1⟩ }).2
          { filePart := some ⟨f, c2⟩ }).2 f).1 =
        { payload := GetPayload.file f c2, status := 200 } := by
    rw [upload_file_plain fs f c1 h, upload_file_plain _ f c2 h]
    rw [get_file_resolved _ f f [] (safeResolve_plain f h), fileAt_setFile_same]
    rfl
  refine ⟨hfirst, ?_⟩
  rw [hfirst]
  intro hcontra
  have h2 : GetPayload.file f c2 = GetPayload.file f c1 := hcontra
  injection h2 with h3 h4
  exact hne h4.symm

/-- C3 counterexample: uploading "../dup" twice with contents [1] then
[2], both uploads answer 200, yet the download answers 404 rather than the
second content. -/
theorem overwrite_last_write_wins_cex :
    (upload_file (upload_file FS.empty { filePart := some ⟨"../dup", [1]⟩ }).2
        { filePart := some ⟨"../dup", [2]⟩ }).1.status = 200 ∧
    (get_file (upload_file (upload_file FS.empty { filePart := some ⟨"../dup", [1]⟩ }).2
        { filePart := some ⟨"../dup", [2]⟩ }).2 ("../dup")).1 =
      { payload := GetPayload.notFound, status := 404 } :=
  ⟨rfl, rfl⟩

/-- C3 witness at filename "w3" and contents [0] and [1]. -/
theorem overwrite_last_write_wins_witness :
    (get_file (upload_file (upload_file FS.empty { filePart := some ⟨"w3", [0]⟩ }).2
        { filePart := some ⟨"w3", [1]⟩ }).2 ("w3")).1 =
      { payload := GetPayload.file ("w3") [1], status := 200 } :=
  (overwrite_last_write_wins FS.empty ("w3") [0] [1] (by decide) (by decide)).1

/-- C4: when no regular file sits at the resolved path of the requested
filename, the download handler answers the framework default 404 with no
custom body. -/
theorem download_missing_404 (fs : FS) (f : String)
    (h : ∀ p, safeResolve f = some p → fs.fileAt (Loc.inside p) = none) :
    (get_file fs f).1 = { payload := GetPayload.notFound, status := 404 } := by
  cases hr : safeResolve f with
  | none =>
    unfold get_file
    rw [hr]
  | some p =>
    cases p with
    | nil =>
      unfold get_file
      rw [hr]
    | cons n rest =>
      rw [get_file_resolved fs f n rest hr, h _ hr]

/-- C4 witness: downloading "ghost" from the empty directory answers
404. -/
theorem download_missing_404_witness :
    (get_file FS.empty ("ghost")).1 = { payload := GetPayload.notFound, status := 404 } :=
  download_missing_404 FS.empty ("ghost") (fun _ _ => rfl)

/-- C5 (amended): after uploading N distinct filenames, each containing no
path separator and none equal to "." or "..", into an empty storage
directory, the listing answers 200 and its files array contains exactly
those N names as a set (order unconstrained); only regular files appear,
subdirectories are excluded. -/
theorem listing_after_uploads (fps : List (String × Bytes))
    (hplain : ∀ p ∈ fps, plainName p.1)
    (_hnodup : (fps.map Prod.fst).Nodup) :
    (list_files (uploadAll FS.empty fps)).1.status = 200 ∧
    ∀ n, n ∈ (list_files (uploadAll FS.empty fps)).1.files ↔ n ∈ fps.map Prod.fst := by
  refine ⟨rfl, fun n => ?_⟩
  have hfiles : (list_files (uploadAll FS.empty fps)).1.files =
      (uploadAll FS.empty fps).listing := rfl
  rw [hfiles, mem_listing_uploadAll fps FS.empty n hplain]
  simp [FS.listing, FS.listdir, FS.empty]

/-- C5 counterexample: in a storage directory whose only entry is the
subdirectory sub, uploading the single (distinct) filename "sub/one"
succeeds with 200 — `open` finds the sub directory — yet the listing is
empty and does not contain "sub/one", since `os.listdir` only enumerates
immediate entries and `isfile` excludes the subdirectory. -/
theorem listing_after_uploads_cex :
    (upload_file ⟨[], [["sub"]]⟩ { filePart := some ⟨"sub/one", [1]⟩ }).1.status = 200 ∧
    (list_files (uploadAll ⟨[], [["sub"]]⟩ [("sub/one", [1])])).1.files = [] :=
  ⟨rfl, rfl⟩

/-- C5 witness at the two distinct plain filenames "a" and "b". -/
theorem listing_after_uploads_witness :
    (list_files (uploadAll FS.empty [("a", [1]), ("b", [2])])).1.status = 200 ∧
    "a" ∈ (list_files (uploadAll FS.empty [("a", [1]), ("b", [2])])).1.files :=
  ⟨(listing_after_uploads [("a", [1]), ("b", [2])] (by decide) (by decide)).1,
    ((listing_after_uploads [("a", [1]), ("b", [2])] (by decide) (by decide)).2 ("a")).mpr
      (by decide)⟩

/-- C6 (amended): uploading never creates a subdirectory (the set of
subdirectories is unchanged by every upload), the listing never descends
into subdirectories (every listed name is a depth-1 regular file), and a
file uploaded under an accepted filename containing no path separator
(and not "." or "..") lies directly inside the storage directory;
filenames containing separators resolve deeper or outside. -/
theorem uploads_flat (fs : FS) (req : UploadRequest) (f : String) :
    ((upload_file fs req).2.dirs = fs.dirs) ∧
    (∀ n, n ∈ fs.listing → ∃ c, (Loc.inside [n], c) ∈ fs.files) ∧
    (plainName f → Loc.directlyInside (resolveUpload f) = true) := by
  refine ⟨?_, ?_, ?_⟩
  · obtain ⟨p⟩ := req
    cases p with
    | none => rfl
    | some fp =>
      by_cases hf : fp.filename = ""
      · simp [upload_file, hf]
      · by_cases hs : saveOk fs (resolveUpload fp.filename) = true <;>
          simp [upload_file, FS.setFile, hf, hs]
  · intro n hn
    exact (mem_listing_iff fs n).mp hn
  · intro h
    rw [resolveUpload_plain f h]
    rfl

/-- C6 counterexample: in a storage directory containing the subdirectory
d, the filename "d/in" is accepted by the upload handler (status 200),
yet the saved file sits at the depth-2 path d/in, not directly inside the
storage directory. -/
theorem uploads_flat_cex :
    (upload_file ⟨[], [["d"]]⟩ { filePart := some ⟨"d/in", [7]⟩ }).1.status = 200 ∧
    Loc.directlyInside (resolveUpload ("d/in")) = false ∧
    (upload_file ⟨[], [["d"]]⟩ { filePart := some ⟨"d/in", [7]⟩ }).2.files =
      [(Loc.inside ["d", "in"], [7])] :=
  ⟨rfl, rfl, rfl⟩

/-- C6 witness at the plain filename "w6". -/
theorem uploads_flat_witness :
    Loc.directlyInside (resolveUpload ("w6")) = true :=
  (uploads_flat FS.empty { filePart := none } ("w6")).2.2 (by decide)

/-- C7: a download request whose filename resolves outside the storage
directory (absolute, or climbing above it with parent-directory segments)
is rejected by the safe path resolution with the default 404 and never
served. -/
theorem traversal_rejected (fs : FS) (f : String)
    (h : resolveUpload f = Loc.outside f) :
    (get_file fs f).1 = { payload := GetPayload.notFound, status := 404 } := by
  unfold get_file
  rw [safeResolve_eq_none_of_outside f h]

/-- C7 witness at filename "../secret". -/
theorem traversal_rejected_witness :
    (get_file FS.empty ("../secret")).1 = { payload := GetPayload.notFound, status := 404 } :=
  traversal_rejected FS.empty ("../secret") rfl

/-- C8 (amended): a POST /upload with a `file` part whose filename is
non-empty, contains no path separator and is not "." or ".." answers 200
with body "File uploaded successfully" and stores the part's bytes
directly inside the storage directory under exactly the given filename;
a filename with parent-directory segments is likewise accepted with 200
but its bytes land outside the storage directory. -/
theorem upload_success (fs : FS) (f : String) (c : Bytes) (h : plainName f) :
    (upload_file fs { filePart := some ⟨f, c⟩ }).1 =
      { body := "File uploaded successfully", status := 200 } ∧
    (upload_file fs { filePart := some ⟨f, c⟩ }).2.fileAt (Loc.inside [f]) = some c := by
  rw [upload_file_plain fs f c h]
  exact ⟨rfl, fileAt_setFile_same fs (Loc.inside [f]) c⟩

/-- C8 counterexample: uploading under filename "../c8" answers 200, yet
the only file written sits outside the storage directory. -/
theorem upload_success_cex :
    (upload_file FS.empty { filePart := some ⟨"../c8", [9]⟩ }).1.status = 200 ∧
    (upload_file FS.empty { filePart := some ⟨"../c8", [9]⟩ }).2.files =
      [(Loc.outside ("../c8"), [9])] :=
  ⟨rfl, rfl⟩

/-- C8 witness at filename "w8" and content [3]. -/
theorem upload_success_witness :
    (upload_file FS.empty { filePart := some ⟨"w8", [3]⟩ }).1 =
      { body := "File uploaded successfully", status := 200 } :=
  (upload_success FS.empty ("w8") [3] (by decide)).1

/-- C9: the listing and download handlers are read-only: for every
filesystem state and every requested filename, both return the state
unchanged, in success and in failure. -/
theorem handlers_read_only (fs : FS) (f : String) :
    (list_files fs).2 = fs ∧ (get_file fs f).2 = fs := by
  refine ⟨rfl, ?_⟩
  cases hr : safeResolve f with
  | none =>
    unfold get_file
    rw [hr]
  | some p =>
    cases p with
    | nil =>
      unfold get_file
      rw [hr]
    | cons n rest =>
      rw [get_file_resolved fs f n rest hr]
      cases fs.fileAt (Loc.inside (n :: rest)) <;> rfl

/-- C10: the listing reports exactly the names of the regular files that
sit directly in the storage directory at request time, for an arbitrary
state — in particular also files that were never uploaded through the
API. -/
theorem listing_reflects_directory (fs : FS) (n : String) :
    n ∈ (list_files fs).1.files ↔ ∃ c, (Loc.inside [n], c) ∈ fs.files :=
  mem_listing_iff fs n

/-- C10 witness: a file "pre" present in the directory without ever being
uploaded is reported by the listing. -/
theorem listing_reflects_directory_witness :
    "pre" ∈ (list_files ⟨[(Loc.inside ["pre"], [7])], []⟩).1.files :=
  (listing_reflects_directory ⟨[(Loc.inside ["pre"], [7])], []⟩ ("pre")).mpr
    ⟨[7], by simp⟩
